import Mathlib

/-!
Verification development for the OpenClaw VS Code extension
(`src/client.ts`, `src/panel.ts`).  The TypeScript source is embedded
shallowly: JSON values become an inductive `Json` type, JavaScript
truthiness and field access are modelled explicitly, network / file
system / process effects become oracle functions passed as arguments,
and each operation returns both its result value and the list of
external effects it performed.
-/

namespace OpenClaw

/-- A JSON value, as manipulated by the untyped TypeScript client code.
`null` doubles for the JavaScript `null`; an absent field (`undefined`)
is modelled as `Option.none` at the use sites. -/
inductive Json where
  | null : Json
  | bool : Bool → Json
  | num : Int → Json
  | str : String → Json
  | arr : List Json → Json
  | obj : List (String × Json) → Json
deriving Repr

/-- Field access `v.name` on a JSON value: `some` when `v` is an object
with that field, `none` (JavaScript `undefined`) otherwise. -/
def getField (v : Json) (key : String) : Option Json :=
  match v with
  | .obj fields => fields.lookup key
  | _ => none

/-- JavaScript truthiness of a JSON value: `null`, `false`, `0` and the
empty string are falsy; arrays and objects are always truthy. -/
def jsonTruthy : Json → Bool
  | .null => false
  | .bool b => b
  | .num n => n != 0
  | .str s => s != ""
  | .arr _ => true
  | .obj _ => true

mutual

/-- JavaScript string coercion `String(v)` restricted to our JSON
values: numbers print in decimal, arrays join their elements with a
comma (with `null` rendered empty inside arrays), objects render as
`[object Object]`. -/
def jsToString : Json → String
  | .null => "null"
  | .bool b => if b then "true" else "false"
  | .num n => toString n
  | .str s => s
  | .arr xs => String.intercalate "," (jsToStringElems xs)
  | .obj _ => "[object Object]"

/-- Element-wise rendering used by the array case of `jsToString`
(JavaScript `Array.prototype.join` renders `null` elements as empty). -/
def jsToStringElems : List Json → List String
  | [] => []
  | .null :: rest => "" :: jsToStringElems rest
  | j :: rest => jsToString j :: jsToStringElems rest

end

/-- The JavaScript expression `a || b` where `a` may be an absent field:
yields `a` when present and truthy, else `b`. -/
def jsOr (a : Option Json) (b : Json) : Json :=
  match a with
  | some v => if jsonTruthy v then v else b
  | none => b

/-- The JavaScript expression `a || b` on optional strings (an absent or
empty `a` yields `b`). -/
def jsOrS (a : Option String) (b : String) : String :=
  match a with
  | some s => if s = "" then b else s
  | none => b

/-! ## Config loading (`client.ts`, `loadConfig`, lines 38-46) -/

/-- The client configuration state set by `OpenClawClient.loadConfig`:
`baseUrl` with a single trailing slash removed, the token verbatim, the
session key with the legacy alias rewritten, and the connection flag
reset. -/
structure ClientConfig where
  baseUrl : String
  token : String
  sessionKey : String
  connected : Bool
deriving Repr, DecidableEq

/-- One trailing slash removed, as `url.replace(/\/$/, '')` does. -/
def stripTrailingSlash (s : String) : String :=
  if s.data.getLast? = some '/' then String.mk s.data.dropLast else s

/-- `loadConfig` from `client.ts`: the raw setting values map to the
client state.  The session-key line is
`rawKey === 'main:main' ? 'agent:main:main' : rawKey`. -/
def loadConfig (gatewayUrl gatewayToken rawKey : String) : ClientConfig :=
  { baseUrl := stripTrailingSlash gatewayUrl
  , token := gatewayToken
  , sessionKey := if rawKey = "main:main" then "agent:main:main" else rawKey
  , connected := false }

/-- `isConfigured` from `client.ts`: both URL and token non-empty. -/
def isConfigured (c : ClientConfig) : Bool :=
  c.baseUrl != "" && c.token != ""

/-! ## Envelope unwrapping (`client.ts`, `invokeTool`, lines 94-146)

The HTTP layer is abstracted away: `invokeUnwrap` receives the decoded
response body (`none` when `response.json()` failed) and the HTTP
status, and computes the `{ok, result?, error?}` record that
`invokeTool` returns.  `JSON.parse` on the inner text is an oracle
`parse : String → Option Json` (`none` models a parse exception). -/

/-- Whether a content block `c` satisfies `c.type === 'text'`. -/
def isTextType (c : Json) : Bool :=
  match getField c "type" with
  | some (.str s) => s == "text"
  | _ => false

/-- `content.find(c => c.type === 'text')?.text`: the `text` field of
the first text-typed block, when both exist. -/
def findTextContent (blocks : List Json) : Option Json :=
  (blocks.find? fun c => isTextType c).bind fun c => getField c "text"

/-- Lines 124-136 of `client.ts`: when `resultData` has a `content`
array whose first text-typed block carries a truthy `text`, a second
JSON decode of that text is attempted, falling back to the raw text
value when the decode fails.  Returns the final value of the
`resultData` variable, paired with a flag recording whether a second
decode was attempted. -/
def mcpUnwrap (parse : String → Option Json) (resultData : Json) : Json × Bool :=
  match getField resultData "content" with
  | some (.arr blocks) =>
    match findTextContent blocks with
    | some tv =>
      if jsonTruthy tv then
        match parse (jsToString tv) with
        | some j => (j, true)
        | none => (tv, true)
      else (resultData, false)
    | none => (resultData, false)
  | _ => (resultData, false)

/-- The outcome of `invokeTool`: `success r` models `{ok: true, result: r}`
(`r = none` when the `result` field is absent) and `failure e` models
`{ok: false, error: e}`. -/
inductive InvokeOutcome where
  | success (result : Option Json)
  | failure (error : Json)
deriving Repr

/-- The envelope error of lines 117-122: `typeof data?.error === 'string'`
yields the error string itself, otherwise `data?.error?.message` when
truthy, otherwise the HTTP status text. -/
def envelopeError (d : Json) (status : Nat) : Json :=
  match getField d "error" with
  | some (.str s) => .str s
  | e =>
    match e.bind fun v => getField v "message" with
    | some mv => if jsonTruthy mv then mv else .str ("HTTP " ++ toString status)
    | none => .str ("HTTP " ++ toString status)

/-- `v && typeof v === 'object'` for our JSON values: arrays and
objects (JavaScript `null` is excluded by the truthiness guard). -/
def isObjectLike : Json → Bool
  | .arr _ => true
  | .obj _ => true
  | _ => false

/-- Strict equality `v === 'error'` with the string literal `error`. -/
def isStrErrorTag : Json → Bool
  | .str s => s == "error"
  | _ => false

/-- Lines 109-146 of `client.ts`: decode failure handling, the outer
`ok`/`error` envelope check, MCP content unwrapping, and the embedded
`status === 'error'` / `error` check on the unwrapped payload. -/
def invokeUnwrap (parse : String → Option Json) (data : Option Json) (status : Nat) :
    InvokeOutcome :=
  match data with
  | none => .failure (.str ("HTTP " ++ toString status ++ ": non-JSON response"))
  | some d =>
    if !(match getField d "ok" with | some v => jsonTruthy v | none => false) then
      .failure (envelopeError d status)
    else
      match getField d "result" with
      | none => .success none
      | some r0 =>
        let r := (mcpUnwrap parse r0).1
        if isObjectLike r &&
            ((match getField r "status" with | some v => isStrErrorTag v | none => false) ||
             (match getField r "error" with | some v => jsonTruthy v | none => false)) then
          .failure (jsOr (getField r "error") (.str "Unknown tool error"))
        else
          .success (some r)

/-! ## History parsing (`client.ts`, `extractTextContent` lines 240-251,
`fetchHistory` lines 253-281) -/

/-- The `text` field of a block when it is present and a string
(`typeof c.text === 'string'`). -/
def textStringOf (c : Json) : Option String :=
  match getField c "text" with
  | some (.str s) => some s
  | _ => none

/-- `OpenClawClient.extractTextContent`: a string passes through; an
array keeps the blocks with `type === 'text'` and a string `text`, maps
them to their text and joins with a blank line; anything else is
`String(content || '')`.  The argument is `none` when the `content`
field was absent. -/
def extractTextContent (content : Option Json) : String :=
  match content with
  | some (.str s) => s
  | some (.arr blocks) =>
    String.intercalate "\n\n"
      ((blocks.filter fun c => isTextType c && (textStringOf c).isSome).map
        fun c => (textStringOf c).getD "")
  | c => jsToString (jsOr c (.str ""))

/-- A chat message as constructed by the client.  The TypeScript
interface declares `role` and `timestamp` as strings, but `fetchHistory`
copies whatever truthy JSON value the gateway sent, so both are
modelled as JSON values. -/
structure ChatMessage where
  role : Json
  content : String
  timestamp : Json
deriving Repr

/-- Lines 272-276 of `client.ts`: one remote message maps to a
`ChatMessage` via `m.role || 'assistant'`,
`extractTextContent(m.content)` and
`m.timestamp || m.ts || new Date().toISOString()` (the current time is
passed in as `now`). -/
def parseHistoryMessage (now : String) (m : Json) : ChatMessage :=
  { role := jsOr (getField m "role") (.str "assistant")
  , content := extractTextContent (getField m "content")
  , timestamp := jsOr (getField m "timestamp") (jsOr (getField m "ts") (.str now)) }

/-- The value `result.result.messages || result.result` of line 267:
the `messages` field when present and truthy, the result itself
otherwise (tolerating the history arriving as the bare array). -/
def historyMessagesVal (r : Json) : Json :=
  match getField r "messages" with
  | some v => if jsonTruthy v then v else r
  | none => r

/-- `OpenClawClient.fetchHistory`, with the `invokeTool` call abstracted
into its outcome `res`: an unconfigured client, a failed call, an absent
or falsy `result`, or a non-array `messages` shape all yield `[]`; a
well-shaped response maps every entry through `parseHistoryMessage`. -/
def fetchHistory (configured : Bool) (res : InvokeOutcome) (now : String) :
    List ChatMessage :=
  if !configured then []
  else
    match res with
    | .failure _ => []
    | .success none => []
    | .success (some r) =>
      if !jsonTruthy r then []
      else
        match historyMessagesVal r with
        | .arr ms => ms.map (parseHistoryMessage now)
        | _ => []

/-! ## Sending messages (`client.ts`, `sendMessage`, lines 175-204)

The `openclaw agent` CLI call (`execCliSend`) is an oracle
`cli : String → Except String String` taking the outbound text and
returning either the stdout or the message of the rejection error.  The
outcome records the returned result, the connection flag after the call
(`connected0` when untouched), the local messages emitted to the
registered handlers, and the texts handed to the CLI. -/

/-- Everything observable about one `sendMessage` call. -/
structure SendOutcome where
  success : Bool
  error : Option String
  connected : Bool
  emitted : List ChatMessage
  cliSent : List String
deriving Repr

/-- `OpenClawClient.sendMessage`: an unconfigured client fails fast;
otherwise the outbound text gets the `[Working on file: X]` prefix when
`options.fileContext` is truthy (with `options.filePath || 'current
file'` as `X`); a CLI rejection marks the client disconnected and
returns the reason (`err?.message || 'Failed to send message via CLI'`)
as a value; on success a local user-role message carrying the original
text and the current time is emitted and the client is marked
connected. -/
def sendMessage (configured connected0 : Bool) (cli : String → Except String String)
    (content : String) (fileContext filePath : Option String) (now : String) :
    SendOutcome :=
  if !configured then
    { success := false, error := some "Not configured", connected := connected0
    , emitted := [], cliSent := [] }
  else
    let fullMessage :=
      if (match fileContext with | some fc => fc != "" | none => false) then
        "[Working on file: " ++ jsOrS filePath "current file" ++ "]\n\n" ++ content
      else content
    match cli fullMessage with
    | .error e =>
      { success := false
      , error := some (if e = "" then "Failed to send message via CLI" else e)
      , connected := false, emitted := [], cliSent := [fullMessage] }
    | .ok _ =>
      { success := true, error := none, connected := true
      , emitted := [{ role := .str "user", content := content, timestamp := .str now }]
      , cliSent := [fullMessage] }

/-! ## Path resolution and the local tool executor
(`client.ts`, lines 283-353)

`path.resolve(workspaceRoot, p)` is modelled for POSIX paths with an
absolute workspace root: when `p` is absolute it is normalised on its
own, otherwise `root + '/' + p` is, where normalisation drops empty and
`.` segments and lets `..` pop the previous segment (resolution is
purely lexical, exactly as in Node).  File system and process effects
are oracles, and every operation also returns the list of effects it
attempted, so that "performs no I/O" is a statement about that list. -/

/-- JavaScript `s.startsWith(p)` on strings. -/
def jsStartsWith (s p : String) : Bool :=
  p.data.isPrefixOf s.data

/-- Split a character list at every occurrence of `sep` (the splitter
underlying `String.split` behaviour used to model path segmenting). -/
def splitChars (sep : Char) : List Char → List (List Char)
  | [] => [[]]
  | c :: rest =>
    let r := splitChars sep rest
    if c = sep then [] :: r
    else
      match r with
      | h :: t => (c :: h) :: t
      | [] => [[c]]

/-- Split a string into the segments between occurrences of `sep`. -/
def splitOnChar (sep : Char) (s : String) : List String :=
  (splitChars sep s.data).map fun cs => String.mk cs

/-- Lexical normalisation of path segments: empty and `.` segments are
dropped, `..` removes the previously kept segment (or nothing at the
root). -/
def resolveSegments (segs : List String) : List String :=
  segs.foldl
    (fun acc seg =>
      if seg = "" then acc
      else if seg = "." then acc
      else if seg = ".." then acc.dropLast
      else acc ++ [seg])
    []

/-- `path.resolve(root, p)` for POSIX paths with `root` absolute. -/
def pathResolve (root p : String) : String :=
  let full := if jsStartsWith p "/" then p else root ++ "/" ++ p
  "/" ++ String.intercalate "/" (resolveSegments (splitOnChar '/' full))

/-- Result record of `readFile`. -/
structure FileReadResult where
  success : Bool
  content : Option String
  error : Option String
deriving Repr, DecidableEq

/-- `OpenClawClient.readFile` (lines 285-300): resolve against the
workspace root, reject when the resolved path does not pass
`fullPath.startsWith(workspaceRoot)`, otherwise attempt the read.  The
oracle returns the file content or the message of the thrown error;
the second component lists the paths on which a read was attempted. -/
def readFile (workspaceRoot : Option String) (fsRead : String → Except String String)
    (filePath : String) : FileReadResult × List String :=
  match workspaceRoot with
  | none => ({ success := false, content := none, error := some "No workspace open" }, [])
  | some root =>
    let fullPath := pathResolve root filePath
    if !jsStartsWith fullPath root then
      ({ success := false, content := none, error := some "Path outside workspace" }, [])
    else
      match fsRead fullPath with
      | .ok c => ({ success := true, content := some c, error := none }, [fullPath])
      | .error e => ({ success := false, content := none, error := some e }, [fullPath])

/-- One directory entry as produced by `readdirSync(withFileTypes)`. -/
structure DirEnt where
  name : String
  isDir : Bool
deriving Repr, DecidableEq

/-- Result record of `listFiles`. -/
structure ListFilesResult where
  success : Bool
  files : Option (List String)
  error : Option String
deriving Repr, DecidableEq

/-- `OpenClawClient.listFiles` (lines 302-318): same containment check
as `readFile`; directory entries get a trailing slash.  The call sites
default `dirPath` to the empty string. -/
def listFiles (workspaceRoot : Option String)
    (fsList : String → Except String (List DirEnt)) (dirPath : String) :
    ListFilesResult × List String :=
  match workspaceRoot with
  | none => ({ success := false, files := none, error := some "No workspace open" }, [])
  | some root =>
    let fullPath := pathResolve root dirPath
    if !jsStartsWith fullPath root then
      ({ success := false, files := none, error := some "Path outside workspace" }, [])
    else
      match fsList fullPath with
      | .ok entries =>
        ({ success := true
         , files := some (entries.map fun e => if e.isDir then e.name ++ "/" else e.name)
         , error := none }, [fullPath])
      | .error e => ({ success := false, files := none, error := some e }, [fullPath])

/-- Result record of `writeFile`. -/
structure FileWriteResult where
  success : Bool
  error : Option String
deriving Repr, DecidableEq

/-- `OpenClawClient.writeFile` (lines 338-353): same containment check;
the effect list records the attempted `(path, content)` writes. -/
def writeFile (workspaceRoot : Option String)
    (fsWrite : String → String → Except String Unit) (filePath content : String) :
    FileWriteResult × List (String × String) :=
  match workspaceRoot with
  | none => ({ success := false, error := some "No workspace open" }, [])
  | some root =>
    let fullPath := pathResolve root filePath
    if !jsStartsWith fullPath root then
      ({ success := false, error := some "Path outside workspace" }, [])
    else
      match fsWrite fullPath content with
      | .ok _ => ({ success := true, error := none }, [(fullPath, content)])
      | .error e => ({ success := false, error := some e }, [(fullPath, content)])

/-- One `exec` invocation: the command string, the working directory
option and the timeout option passed to `child_process.exec`. -/
structure ExecCall where
  command : String
  cwd : String
  timeout : Nat
deriving Repr, DecidableEq

/-- What the `exec` callback receives: an error message when the
process failed, plus the captured stdout and stderr. -/
structure ExecOutput where
  err : Option String
  stdout : String
  stderr : String
deriving Repr, DecidableEq

/-- Result record of `runCommand`. -/
structure RunResult where
  success : Bool
  stdout : Option String
  stderr : Option String
  error : Option String
deriving Repr, DecidableEq

/-- `OpenClawClient.runCommand` (lines 320-336): the options are
`{cwd: cwd ? path.resolve(workspaceRoot, cwd) : workspaceRoot,
timeout: 30000}` and the command is then executed unconditionally —
the code applies no workspace-containment check to the resolved `cwd`.
The effect list records the exec invocation. -/
def runCommand (workspaceRoot : Option String) (exec : ExecCall → ExecOutput)
    (command : String) (cwd : Option String) : RunResult × List ExecCall :=
  match workspaceRoot with
  | none =>
    ({ success := false, stdout := none, stderr := none, error := some "No workspace open" }, [])
  | some root =>
    let call : ExecCall :=
      { command := command
      , cwd := match cwd with | some c => pathResolve root c | none => root
      , timeout := 30000 }
    let out := exec call
    ( match out.err with
      | some e =>
        { success := false, stdout := some out.stdout, stderr := some out.stderr
        , error := some e }
      | none =>
        { success := true, stdout := some out.stdout, stderr := some out.stderr
        , error := none }
    , [call])

/-! ## Tool approval (`panel.ts`, `handleApproveTool`, lines 143-175;
identical in the second panel revision)

`pendingTools : Map<string, PendingTool>` becomes an association list
with unique keys; `Map.get` is the first lookup and `Map.delete`
removes the key.  The `resolve` continuation of a pending tool is
modelled observationally: the function returns the updated registry
together with the list of `(id, payload)` resolutions it performed
(the `postMessage` notifications to the webview are not modelled). -/

/-- One pending tool request as stored in the registry. -/
structure ToolEntry where
  id : String
  tool : String
  args : Json

/-- The four client operations `handleApproveTool` can dispatch to,
as oracles from the (possibly absent) argument fields to the result
payload. -/
structure ToolOps where
  readFileOp : Option Json → Json
  listFilesOp : Option Json → Json
  runCommandOp : Option Json → Option Json → Json
  writeFileOp : Option Json → Option Json → Json

/-- `Map.get` on the registry. -/
def mapGet : List (String × ToolEntry) → String → Option ToolEntry
  | [], _ => none
  | (k, v) :: rest, key => if k = key then some v else mapGet rest key

/-- `Map.delete` on the registry (association lists with unique keys). -/
def mapDelete (m : List (String × ToolEntry)) (key : String) :
    List (String × ToolEntry) :=
  m.filter fun p => p.1 != key

/-- The `switch (tool.tool)` dispatch of lines 156-171. -/
def dispatchTool (ops : ToolOps) (t : ToolEntry) : Json :=
  match t.tool with
  | "read_file" => ops.readFileOp (getField t.args "file_path")
  | "list_files" => ops.listFilesOp (getField t.args "dir_path")
  | "run_command" => ops.runCommandOp (getField t.args "command") (getField t.args "cwd")
  | "write_file" => ops.writeFileOp (getField t.args "file_path") (getField t.args "content")
  | other => .obj [("error", .str ("Unknown tool: " ++ other))]

/-- `OpenClawPanel.handleApproveTool`: an absent id is a no-op; a
present id is removed from the registry first and then resolved exactly
once — with the rejection payload when not approved, with the
dispatched tool result otherwise. -/
def handleApproveTool (pending : List (String × ToolEntry)) (ops : ToolOps)
    (toolId : String) (approved : Bool) :
    List (String × ToolEntry) × List (String × Json) :=
  match mapGet pending toolId with
  | none => (pending, [])
  | some t =>
    let pending' := mapDelete pending toolId
    if !approved then
      (pending', [(toolId, .obj [("error", .str "User rejected tool execution")])])
    else
      (pending', [(toolId, dispatchTool ops t)])

/-! ## Spec-side definitions

These two definitions follow the words of the specification, not the
source, and exist to be compared against the code-side definitions
above. -/

/-- Modelled from the spec: a resolved path "remains a descendant of
the workspace root" when it is the root itself or extends the root at a
path-separator boundary.  This is the containment notion the spec
demands, used to state where the code-side prefix check diverges. -/
def insideWorkspace (root p : String) : Bool :=
  p == root || (root ++ "/").data.isPrefixOf p.data

/-- Modelled from the spec: flattening a content-block array "by
concatenating only the text-typed blocks in order joined with a blank
line". -/
def specFlattenBlocks (blocks : List Json) : String :=
  String.intercalate "\n\n"
    (blocks.filterMap fun c => if isTextType c then textStringOf c else none)

/-! ## Concrete fixtures used by witnesses -/

/-- A decode oracle that always succeeds with the number 7. -/
def parseConst7 : String → Option Json := fun _ => some (.num 7)

/-- A text block carrying the non-empty text `payload`. -/
def c4Block : Json := .obj [("type", .str "text"), ("text", .str "payload")]

/-- An MCP result whose content array holds `c4Block`. -/
def c4Result : Json := .obj [("content", .arr [c4Block])]

/-- A remote history message with one text block `hi`. -/
def c6Msg : Json :=
  .obj [("role", .str "assistant"),
        ("content", .arr [.obj [("type", .str "text"), ("text", .str "hi")]])]

/-- A `sessions_history` result carrying `c6Msg` under `messages`. -/
def c6HistoryResult : Json := .obj [("messages", .arr [c6Msg])]

/-- A pending tool registry entry. -/
def toolEntryEx : ToolEntry :=
  { id := "42", tool := "read_file", args := .obj [("file_path", .str "a.txt")] }

/-- Constant client operations for exercising the dispatch. -/
def toolOpsEx : ToolOps :=
  { readFileOp := fun _ => .str "r"
  , listFilesOp := fun _ => .str "l"
  , runCommandOp := fun _ _ => .str "c"
  , writeFileOp := fun _ _ => .str "w" }

/-- A text block whose text is present but empty. -/
def c9Block : Json := .obj [("type", .str "text"), ("text", .str "")]

/-- An MCP result whose only text block has empty text. -/
def c9Result : Json := .obj [("content", .arr [c9Block]), ("details", .num 3)]

/-! ## Shared helper lemmas -/

/-- Deleting a key from the registry makes it unresolvable. -/
theorem mapGet_mapDelete (m : List (String × ToolEntry)) (k : String) :
    mapGet (mapDelete m k) k = none := by
  induction m with
  | nil => rfl
  | cons p rest ih =>
    obtain ⟨k', v⟩ := p
    by_cases h : k' = k
    · simpa [mapDelete, List.filter_cons, h] using ih
    · simpa [mapDelete, List.filter_cons, h, mapGet] using ih

/-- `a || b` is truthy whenever the default `b` is. -/
theorem jsonTruthy_jsOr (a : Option Json) (b : Json) (hb : jsonTruthy b = true) :
    jsonTruthy (jsOr a b) = true := by
  cases a with
  | none => simpa [jsOr] using hb
  | some v => cases hv : jsonTruthy v <;> simp [jsOr, hv, hb]

/-! ## Claim C1 -/

/-- Claim C1 is false as stated: with workspace root `/ws`, the
traversal argument `../ws-extra/x` resolves to `/ws-extra/x`, which
lies outside the workspace root, yet it passes the `startsWith` check,
so `readFile` performs the read and succeeds and `writeFile` performs
the write, instead of failing with a path-outside-workspace error. -/
theorem c1_counterexample :
    insideWorkspace "/ws" (pathResolve "/ws" "../ws-extra/x") = false ∧
    readFile (some "/ws") (fun _ => .ok "secret") "../ws-extra/x"
      = ({ success := true, content := some "secret", error := none }, ["/ws-extra/x"]) ∧
    writeFile (some "/ws") (fun _ _ => .ok ()) "../ws-extra/x" "data"
      = ({ success := true, error := none }, [("/ws-extra/x", "data")]) :=
  ⟨rfl, rfl, rfl⟩

/-- Claim C1, amended: each of `readFile`, `writeFile` and `listFiles`
returns the `Path outside workspace` failure and performs no file
system effect exactly for those path arguments whose resolution does
not have the workspace-root string as a prefix (the code-side check);
a path resolving outside the root can still pass when its absolute
path string extends the root without a separator. -/
theorem c1_outside_rejected_when_prefix_fails (root p : String)
    (h : jsStartsWith (pathResolve root p) root = false)
    (fsRead : String → Except String String)
    (fsWrite : String → String → Except String Unit)
    (fsList : String → Except String (List DirEnt)) (content : String) :
    readFile (some root) fsRead p
      = ({ success := false, content := none, error := some "Path outside workspace" }, []) ∧
    writeFile (some root) fsWrite p content
      = ({ success := false, error := some "Path outside workspace" }, []) ∧
    listFiles (some root) fsList p
      = ({ success := false, files := none, error := some "Path outside workspace" }, []) := by
  refine ⟨?_, ?_, ?_⟩ <;> simp [readFile, writeFile, listFiles, h]

/-- Witness for the amended C1: the spec scenario
`readFile("../../etc/passwd")` with root `/ws` fails closed with no
read attempted. -/
theorem c1_outside_rejected_when_prefix_fails_witness :
    jsStartsWith (pathResolve "/ws" "../../etc/passwd") "/ws" = false ∧
    readFile (some "/ws") (fun _ => .ok "pw") "../../etc/passwd"
      = ({ success := false, content := none, error := some "Path outside workspace" }, []) := by
  have h : jsStartsWith (pathResolve "/ws" "../../etc/passwd") "/ws" = false := by decide
  exact ⟨h, (c1_outside_rejected_when_prefix_fails "/ws" "../../etc/passwd" h
    (fun _ => .ok "pw") (fun _ _ => .ok ()) (fun _ => .ok []) "c").1⟩

/-! ## Claim C2 -/

/-- Claim C2 is false as stated: with workspace root `/ws`, a `cwd`
argument of `../elsewhere` resolves to `/elsewhere`, outside the
workspace root, yet `runCommand` does not fail — it executes the
command in that directory and reports success. -/
theorem c2_counterexample :
    insideWorkspace "/ws" (pathResolve "/ws" "../elsewhere") = false ∧
    runCommand (some "/ws") (fun _ => { err := none, stdout := "ok", stderr := "" })
        "ls" (some "../elsewhere")
      = ({ success := true, stdout := some "ok", stderr := some "", error := none },
         [{ command := "ls", cwd := "/elsewhere", timeout := 30000 }]) :=
  ⟨rfl, rfl⟩

/-- Claim C2, amended: `runCommand` with an open workspace resolves the
`cwd` argument against the workspace root but applies no
workspace-containment check to it; the command is always executed
exactly once, in the resolved directory (the workspace root when no
`cwd` is given), under the fixed 30000 ms timeout. -/
theorem c2_exec_unchecked_cwd (root command : String) (cwd : Option String)
    (exec : ExecCall → ExecOutput) :
    (runCommand (some root) exec command cwd).2
      = [{ command := command
         , cwd := match cwd with | some c => pathResolve root c | none => root
         , timeout := 30000 }] := rfl

/-- Witness for the amended C2: a concrete command with no `cwd` runs
once at the workspace root with the 30000 ms timeout. -/
theorem c2_exec_unchecked_cwd_witness :
    (runCommand (some "/ws") (fun _ => { err := none, stdout := "", stderr := "" })
        "pwd" none).2
      = [{ command := "pwd", cwd := "/ws", timeout := 30000 }] :=
  c2_exec_unchecked_cwd "/ws" "pwd" none (fun _ => { err := none, stdout := "", stderr := "" })

/-! ## Claim C3 -/

/-- Claim C3 is false as stated: the legacy two-part session key
`foo:bar` is not normalised to `agent:foo:bar` by configuration
loading — it passes through unchanged. -/
theorem c3_counterexample :
    (loadConfig "http://h:18789" "t" "foo:bar").sessionKey = "foo:bar" ∧
    "foo:bar" ≠ "agent:foo:bar" :=
  ⟨rfl, by decide⟩

/-- Claim C3, amended: configuration loading rewrites only the exact
legacy key `main:main` to the canonical `agent:main:main`; every other
supplied session key — including other two-part legacy keys — passes
through unchanged. -/
theorem c3_normalize_main_main_only (url token k : String) (h : k ≠ "main:main") :
    (loadConfig url token "main:main").sessionKey = "agent:main:main" ∧
    (loadConfig url token k).sessionKey = k := by
  exact ⟨rfl, by simp [loadConfig, h]⟩

/-- Witness for the amended C3: a canonical three-part key passes
through unchanged. -/
theorem c3_normalize_main_main_only_witness :
    ("agent:a:b" : String) ≠ "main:main" ∧
    (loadConfig "u" "t" "agent:a:b").sessionKey = "agent:a:b" := by
  have h : ("agent:a:b" : String) ≠ "main:main" := by decide
  exact ⟨h, (c3_normalize_main_main_only "u" "t" "agent:a:b" h).2⟩

/-! ## Claim C4 -/

/-- Claim C4: for a successful envelope whose result carries a content
array, when the first text-typed block carries a non-empty text string
`t`, the unwrapping stage attempts a second JSON decode of `t` and the
final value of `resultData` is the decoded JSON value when the decode
succeeds and the raw text string otherwise.  (The subsequent
embedded-error check of `invokeUnwrap` is a separate pipeline stage.) -/
theorem c4_unwrap_first_text (parse : String → Option Json) (r : Json)
    (blocks : List Json) (t : String)
    (hc : getField r "content" = some (Json.arr blocks))
    (ht : findTextContent blocks = some (Json.str t))
    (hne : t ≠ "") :
    mcpUnwrap parse r
      = (match parse t with | some j => j | none => Json.str t, true) := by
  simp only [mcpUnwrap, hc, ht, jsonTruthy, jsToString, bne_iff_ne, hne]
  simp only [bne_iff_ne, ne_eq, hne, not_false_eq_true, if_true]
  cases parse t <;> rfl

/-- Witness for C4: a content array whose text block holds `payload`
decodes through the oracle to the number 7. -/
theorem c4_unwrap_first_text_witness :
    getField c4Result "content" = some (Json.arr [c4Block]) ∧
    findTextContent [c4Block] = some (Json.str "payload") ∧
    ("payload" : String) ≠ "" ∧
    mcpUnwrap parseConst7 c4Result = (Json.num 7, true) := by
  refine ⟨rfl, rfl, by decide, ?_⟩
  exact c4_unwrap_first_text parseConst7 c4Result [c4Block] "payload" rfl rfl (by decide)

/-! ## Claim C5 -/

/-- Claim C5: with a configured client and a non-empty file context,
the outbound text handed to the CLI is the original text prefixed with
the `[Working on file: X]` marker; on CLI success a local user-role
message carrying the original un-prefixed text and the current time is
emitted and the connection state becomes connected; on CLI failure the
connection state becomes disconnected, nothing is emitted, and the
failure reason is returned as a result value (the model is a total
function, so no exception can escape). -/
theorem c5_send_message (connected0 : Bool) (cli : String → Except String String)
    (content fp now fc : String) (hfc : fc ≠ "") :
    (sendMessage true connected0 cli content (some fc) (some fp) now).cliSent
      = ["[Working on file: " ++ jsOrS (some fp) "current file" ++ "]\n\n" ++ content] ∧
    (∀ s,
      cli ("[Working on file: " ++ jsOrS (some fp) "current file" ++ "]\n\n" ++ content)
        = .ok s →
      sendMessage true connected0 cli content (some fc) (some fp) now
        = { success := true, error := none, connected := true
          , emitted := [{ role := .str "user", content := content, timestamp := .str now }]
          , cliSent :=
              ["[Working on file: " ++ jsOrS (some fp) "current file" ++ "]\n\n" ++ content] }) ∧
    (∀ e,
      cli ("[Working on file: " ++ jsOrS (some fp) "current file" ++ "]\n\n" ++ content)
        = .error e →
      sendMessage true connected0 cli content (some fc) (some fp) now
        = { success := false
          , error := some (if e = "" then "Failed to send message via CLI" else e)
          , connected := false, emitted := []
          , cliSent :=
              ["[Working on file: " ++ jsOrS (some fp) "current file" ++ "]\n\n" ++ content] }) := by
  have hfc' : (fc != "") = true := by simp [bne_iff_ne, hfc]
  refine ⟨?_, ?_, ?_⟩
  · cases hcli :
      cli ("[Working on file: " ++ jsOrS (some fp) "current file" ++ "]\n\n" ++ content) <;>
      simp [sendMessage, hfc', hcli]
  · intro s hs
    simp [sendMessage, hfc', hs]
  · intro e he
    simp [sendMessage, hfc', he]

/-- Witness for C5: a concrete successful send with file context. -/
theorem c5_send_message_witness :
    ("filetext" : String) ≠ "" ∧
    sendMessage true false (fun _ => .ok "proc") "hello" (some "filetext") (some "/a/b.ts") "T"
      = { success := true, error := none, connected := true
        , emitted := [{ role := .str "user", content := "hello", timestamp := .str "T" }]
        , cliSent := ["[Working on file: /a/b.ts]\n\nhello"] } := by
  have h := (c5_send_message false (fun _ => .ok "proc") "hello" "/a/b.ts" "T" "filetext"
    (by decide)).2.1 "proc" rfl
  exact ⟨by decide, h⟩

/-! ## Claim C6 -/

/-- The filter-then-map of `extractTextContent` agrees with the
spec-side filterMap when every text-typed block carries a string
`text`. -/
theorem filter_text_blocks_eq_filterMap (blocks : List Json)
    (h : ∀ c ∈ blocks, isTextType c = true → (textStringOf c).isSome = true) :
    ((blocks.filter fun c => isTextType c && (textStringOf c).isSome).map
        fun c => (textStringOf c).getD "")
      = blocks.filterMap fun c => if isTextType c then textStringOf c else none := by
  induction blocks with
  | nil => rfl
  | cons c bs ih =>
    have hrest : ∀ x ∈ bs, isTextType x = true → (textStringOf x).isSome = true :=
      fun x hx => h x (List.mem_cons_of_mem _ hx)
    cases hct : isTextType c
    · simp [List.filter_cons, List.filterMap_cons, hct, ih hrest]
    · have hsome : (textStringOf c).isSome = true := h c (List.mem_cons_self c bs) hct
      obtain ⟨s, hs⟩ := Option.isSome_iff_exists.mp hsome
      simp [List.filter_cons, List.filterMap_cons, hct, hs, ih hrest]

/-- Claim C6: `fetchHistory` returns the empty sequence on an
unconfigured client, on any failed invoke outcome, and on every
malformed response shape (absent, falsy or non-array payload), and is
a total function so no exception escapes; on a well-shaped response
each remote message's content — a string, or an array of typed blocks
— is flattened by keeping the text-typed blocks in order and joining
their texts with a blank line. -/
theorem c6_fetch_history (now : String) :
    (∀ res, fetchHistory false res now = []) ∧
    (∀ e, fetchHistory true (.failure e) now = []) ∧
    fetchHistory true (.success none) now = [] ∧
    (∀ r, jsonTruthy r = false → fetchHistory true (.success (some r)) now = []) ∧
    (∀ s, fetchHistory true (.success (some (Json.str s))) now = []) ∧
    (∀ r ms, getField r "messages" = some (Json.arr ms) →
      fetchHistory true (.success (some r)) now = ms.map (parseHistoryMessage now)) ∧
    (∀ ms, fetchHistory true (.success (some (Json.arr ms))) now
      = ms.map (parseHistoryMessage now)) ∧
    (∀ s, extractTextContent (some (Json.str s)) = s) ∧
    (∀ blocks, (∀ c ∈ blocks, isTextType c = true → (textStringOf c).isSome = true) →
      extractTextContent (some (Json.arr blocks)) = specFlattenBlocks blocks) := by
  refine ⟨fun res => rfl, fun e => rfl, rfl, ?_, ?_, ?_, ?_, fun s => rfl, ?_⟩
  · intro r hr
    simp [fetchHistory, hr]
  · intro s
    by_cases h : s = "" <;>
      simp [fetchHistory, jsonTruthy, historyMessagesVal, getField, h]
  · intro r ms h
    have htr : jsonTruthy r = true := by
      cases r <;> first | rfl | simp [getField] at h
    simp only [fetchHistory, htr, Bool.not_true]
    simp [historyMessagesVal, h, jsonTruthy]
  · intro ms
    simp [fetchHistory, jsonTruthy, historyMessagesVal, getField]
  · intro blocks h
    simp [extractTextContent, specFlattenBlocks, filter_text_blocks_eq_filterMap blocks h]

/-- Witness for C6: the spec scenario — a `sessions_history` result
with one assistant message whose content is a single text block `hi`
yields exactly one chat message with content `hi`. -/
theorem c6_fetch_history_witness :
    getField c6HistoryResult "messages" = some (Json.arr [c6Msg]) ∧
    fetchHistory true (.success (some c6HistoryResult)) "T"
      = [{ role := Json.str "assistant", content := "hi", timestamp := Json.str "T" }] := by
  have h := ((c6_fetch_history "T").2.2.2.2.2.1) c6HistoryResult [c6Msg] rfl
  exact ⟨rfl, h⟩

/-! ## Claim C7 -/

/-- Claim C7: for an id present in the pending registry,
`handleApproveTool` removes the id and resolves the request exactly
once — with the rejection payload when not approved, with the
dispatched tool result when approved — and a second call for the same
id is a no-op; for an id absent from the registry the call changes
nothing and resolves nothing. -/
theorem c7_approve_tool (pending : List (String × ToolEntry)) (ops : ToolOps)
    (toolId : String) (approved : Bool) :
    (∀ t, mapGet pending toolId = some t →
      (handleApproveTool pending ops toolId approved).1 = mapDelete pending toolId ∧
      mapGet (handleApproveTool pending ops toolId approved).1 toolId = none ∧
      (handleApproveTool pending ops toolId approved).2
        = [(toolId,
            if approved then dispatchTool ops t
            else .obj [("error", .str "User rejected tool execution")])] ∧
      (∀ b, handleApproveTool (handleApproveTool pending ops toolId approved).1 ops toolId b
        = ((handleApproveTool pending ops toolId approved).1, []))) ∧
    (mapGet pending toolId = none →
      handleApproveTool pending ops toolId approved = (pending, [])) := by
  constructor
  · intro t ht
    have h1 : handleApproveTool pending ops toolId approved
        = (mapDelete pending toolId,
           [(toolId,
             if approved then dispatchTool ops t
             else .obj [("error", .str "User rejected tool execution")])]) := by
      cases approved <;> simp [handleApproveTool, ht]
    refine ⟨by rw [h1], ?_, by rw [h1], ?_⟩
    · rw [h1]
      exact mapGet_mapDelete pending toolId
    · intro b
      rw [h1]
      simp [handleApproveTool, mapGet_mapDelete]
  · intro h
    simp [handleApproveTool, h]

/-- Witness for C7: a pending request `42` rejected once is removed and
resolved with the rejection payload, and a later approval for the same
id is a no-op. -/
theorem c7_approve_tool_witness :
    mapGet [("42", toolEntryEx)] "42" = some toolEntryEx ∧
    mapGet (handleApproveTool [("42", toolEntryEx)] toolOpsEx "42" false).1 "42" = none ∧
    (handleApproveTool [("42", toolEntryEx)] toolOpsEx "42" false).2
      = [("42", .obj [("error", .str "User rejected tool execution")])] ∧
    handleApproveTool (handleApproveTool [("42", toolEntryEx)] toolOpsEx "42" false).1
        toolOpsEx "42" true
      = ((handleApproveTool [("42", toolEntryEx)] toolOpsEx "42" false).1, []) := by
  have h := (c7_approve_tool [("42", toolEntryEx)] toolOpsEx "42" false).1 toolEntryEx rfl
  exact ⟨rfl, h.2.1, h.2.2.1, h.2.2.2 true⟩

/-! ## Claim C8 -/

/-- Claim C8: the workspace-containment check of the file operations is
a bare string-prefix comparison of the resolved path against the
workspace root — the attempted-I/O list of `readFile` is non-empty
exactly when the prefix test passes — and consequently there is a
workspace root and a path argument resolving outside that root (the
sibling directory `/ws-sibling` of root `/ws`) that passes the check
and is read, and likewise written. -/
theorem c8_prefix_containment_bypass :
    (∀ (root p : String) (fsRead : String → Except String String),
      (readFile (some root) fsRead p).2
        = if jsStartsWith (pathResolve root p) root then [pathResolve root p] else []) ∧
    ∃ (root p : String),
      insideWorkspace root (pathResolve root p) = false ∧
      jsStartsWith (pathResolve root p) root = true ∧
      readFile (some root) (fun _ => .ok "data") p
        = ({ success := true, content := some "data", error := none }, [pathResolve root p]) ∧
      writeFile (some root) (fun _ _ => .ok ()) p "w"
        = ({ success := true, error := none }, [(pathResolve root p, "w")]) := by
  constructor
  · intro root p fsRead
    cases h : jsStartsWith (pathResolve root p) root
    · simp [readFile, h]
    · cases hr : fsRead (pathResolve root p) <;> simp [readFile, h, hr]
  · exact ⟨"/ws", "../ws-sibling/y", rfl, rfl, rfl, rfl⟩

/-- Witness for C8: the prefix-test characterisation of the attempted
reads, evaluated at a path inside the workspace. -/
theorem c8_prefix_containment_bypass_witness :
    (readFile (some "/ws") (fun _ => .ok "x") "sub/f.txt").2 = ["/ws/sub/f.txt"] :=
  (c8_prefix_containment_bypass).1 "/ws" "sub/f.txt" (fun _ => .ok "x")

/-! ## Claim C9 -/

/-- Claim C9: for a successful envelope whose result carries a content
array in which no text-typed block carries a non-empty text string
(each text-typed block's `text` — a string per the gateway content
contract — is absent or empty, e.g. the first text block's text is the
empty string), the unwrapping stage attempts no second JSON decode and
the final value of `resultData` is the original content-bearing result
object unchanged, not the empty string. -/
theorem c9_falsy_text_no_decode (parse : String → Option Json) (r : Json)
    (blocks : List Json)
    (hc : getField r "content" = some (Json.arr blocks))
    (hb : ∀ c ∈ blocks, isTextType c = true →
      getField c "text" = none ∨ getField c "text" = some (Json.str "")) :
    mcpUnwrap parse r = (r, false) := by
  cases hf : findTextContent blocks with
  | none => simp [mcpUnwrap, hc, hf]
  | some tv =>
    have hf' := hf
    unfold findTextContent at hf'
    rw [Option.bind_eq_some] at hf'
    obtain ⟨c, hfind, htext⟩ := hf'
    have hmem : c ∈ blocks := List.mem_of_find?_eq_some hfind
    have htype : isTextType c = true := List.find?_some hfind
    rcases hb c hmem htype with h0 | h0
    · rw [h0] at htext
      exact absurd htext (by simp)
    · rw [h0] at htext
      obtain rfl : tv = Json.str "" := by injection htext with h; exact h.symm
      simp [mcpUnwrap, hc, hf, jsonTruthy]

/-- Witness for C9: a result whose only text block has empty text is
passed through unchanged with no decode attempted. -/
theorem c9_falsy_text_no_decode_witness :
    getField c9Result "content" = some (Json.arr [c9Block]) ∧
    mcpUnwrap parseConst7 c9Result = (c9Result, false) := by
  refine ⟨rfl, c9_falsy_text_no_decode parseConst7 c9Result [c9Block] rfl ?_⟩
  intro c hc ht
  rw [List.mem_singleton] at hc
  subst hc
  right
  rfl

/-! ## Claim C10 -/

/-- Claim C10: parsing a remote history message defaults a missing
role to `assistant`; a missing timestamp falls back first to the
message's truthy `ts` field and otherwise to the current time; and
consequently every chat message returned by `fetchHistory` carries a
truthy (hence non-empty) role and timestamp, given a non-empty current
time string. -/
theorem c10_history_defaults (now : String) (hnow : now ≠ "") :
    (∀ m, getField m "role" = none →
      (parseHistoryMessage now m).role = Json.str "assistant") ∧
    (∀ m, getField m "timestamp" = none → getField m "ts" = none →
      (parseHistoryMessage now m).timestamp = Json.str now) ∧
    (∀ m v, getField m "timestamp" = none → getField m "ts" = some v →
      jsonTruthy v = true → (parseHistoryMessage now m).timestamp = v) ∧
    (∀ m, jsonTruthy (parseHistoryMessage now m).role = true ∧
      jsonTruthy (parseHistoryMessage now m).timestamp = true) ∧
    (∀ (configured : Bool) (res : InvokeOutcome) (msg : ChatMessage),
      msg ∈ fetchHistory configured res now →
      jsonTruthy msg.role = true ∧ jsonTruthy msg.timestamp = true) := by
  have hnowT : jsonTruthy (Json.str now) = true := by
    simp [jsonTruthy, bne_iff_ne, hnow]
  have hmsg : ∀ m, jsonTruthy (parseHistoryMessage now m).role = true ∧
      jsonTruthy (parseHistoryMessage now m).timestamp = true := by
    intro m
    constructor
    · exact jsonTruthy_jsOr _ _ (by rfl)
    · exact jsonTruthy_jsOr _ _ (jsonTruthy_jsOr _ _ hnowT)
  refine ⟨?_, ?_, ?_, hmsg, ?_⟩
  · intro m h
    simp [parseHistoryMessage, jsOr, h]
  · intro m h1 h2
    simp [parseHistoryMessage, jsOr, h1, h2]
  · intro m v h1 h2 hv
    simp [parseHistoryMessage, jsOr, h1, h2, hv]
  · intro configured res msg hmem
    cases configured with
    | false => simp [fetchHistory] at hmem
    | true =>
      cases res with
      | failure e => simp [fetchHistory] at hmem
      | success r0 =>
        cases r0 with
        | none => simp [fetchHistory] at hmem
        | some r =>
          cases htr : jsonTruthy r with
          | false => simp [fetchHistory, htr] at hmem
          | true =>
            simp only [fetchHistory, htr, Bool.not_true] at hmem
            cases hm : historyMessagesVal r with
            | arr ms =>
              rw [hm] at hmem
              simp only [Bool.false_eq_true, if_false, List.mem_map] at hmem
              obtain ⟨m, _, rfl⟩ := hmem
              exact hmsg m
            | null => rw [hm] at hmem; simp at hmem
            | bool b => rw [hm] at hmem; simp at hmem
            | num n => rw [hm] at hmem; simp at hmem
            | str s => rw [hm] at hmem; simp at hmem
            | obj fields => rw [hm] at hmem; simp at hmem

/-- Witness for C10: a remote message with no fields at all maps to an
assistant-role message stamped with the given current time. -/
theorem c10_history_defaults_witness :
    ("2024-01-01T00:00:00Z" : String) ≠ "" ∧
    (parseHistoryMessage "2024-01-01T00:00:00Z" (Json.obj [])).role = Json.str "assistant" ∧
    (parseHistoryMessage "2024-01-01T00:00:00Z" (Json.obj [])).timestamp
      = Json.str "2024-01-01T00:00:00Z" := by
  have h := c10_history_defaults "2024-01-01T00:00:00Z" (by decide)
  exact ⟨by decide, h.1 (Json.obj []) rfl, h.2.1 (Json.obj []) rfl rfl⟩

end OpenClaw
